import Mathlib

/-!
# Verification of `compas_robots/model/tool.py` (`ToolModel`)

Shallow embedding of the `ToolModel` class and of the geometry primitives it
uses (`compas.geometry.Frame`, `compas.geometry.Transformation`).  Coordinates
are modelled exactly over `ℚ`; "up to floating-point tolerance" statements of
the specification become exact equalities of the rational model.

The geometry collaborators (`Frame`, `Transformation`) live in the external
`compas` library; they are embedded here by their documented semantics: a frame
is a point plus two axis vectors (the third axis being their cross product),
and a transformation is a 4x4 matrix, multiplied by matrix multiplication.
The `compas` `Frame` constructor normalizes its axes; on orthonormal input —
the class invariant of `Frame` — that normalization is the identity, and the
theorems below carry orthonormality hypotheses accordingly.
-/

/-- A 3-vector of rational coordinates. -/
structure Vec3 where
  x : ℚ
  y : ℚ
  z : ℚ
deriving DecidableEq, Repr

namespace Vec3

/-- Dot product. -/
def dot (u v : Vec3) : ℚ := u.x * v.x + u.y * v.y + u.z * v.z

/-- Cross product. -/
def cross (u v : Vec3) : Vec3 :=
  ⟨u.y * v.z - u.z * v.y, u.z * v.x - u.x * v.z, u.x * v.y - u.y * v.x⟩

end Vec3

/-- `compas.geometry.Frame`: an origin point and two axis vectors.  The third
axis is implied as the cross product of the two stored axes. -/
structure Frame where
  point : Vec3
  xaxis : Vec3
  yaxis : Vec3
deriving DecidableEq, Repr

namespace Frame

/-- The implied third axis `zaxis = xaxis × yaxis`. -/
def zaxis (f : Frame) : Vec3 := Vec3.cross f.xaxis f.yaxis

/-- `Frame.worldXY()`: origin with unit X and Y axes. -/
def worldXY : Frame := ⟨⟨0, 0, 0⟩, ⟨1, 0, 0⟩, ⟨0, 1, 0⟩⟩

/-- The `Frame` class invariant: the two stored axes are unit length and
orthogonal (the `compas` constructor normalizes input axes; on such input the
normalization is the identity). -/
def IsOrthonormal (f : Frame) : Prop :=
  Vec3.dot f.xaxis f.xaxis = 1 ∧ Vec3.dot f.yaxis f.yaxis = 1 ∧
    Vec3.dot f.xaxis f.yaxis = 0

instance (f : Frame) : Decidable f.IsOrthonormal := by
  unfold IsOrthonormal; infer_instance

end Frame

/-- `compas.geometry.Transformation`: a 4x4 matrix. -/
abbrev Transformation := Matrix (Fin 4) (Fin 4) ℚ

namespace Transformation

/-- `Transformation.from_frame(f)`: the matrix whose rotation columns are the
frame's axes (x, y, z = x × y) and whose translation column is the frame's
point, with bottom row `[0, 0, 0, 1]`. -/
def from_frame (f : Frame) : Transformation :=
  !![f.xaxis.x, f.yaxis.x, (f.zaxis).x, f.point.x;
     f.xaxis.y, f.yaxis.y, (f.zaxis).y, f.point.y;
     f.xaxis.z, f.yaxis.z, (f.zaxis).z, f.point.z;
     0, 0, 0, 1]

/-- Matrix inversion as used by `compas` (`matrix_inverse`): the adjugate
divided by the determinant, which is the inverse for any invertible matrix. -/
def inverted (T : Transformation) : Transformation :=
  (T.det)⁻¹ • T.adjugate

/-- `Transformation.from_frame_to_frame(a, b)`: the transformation taking
frame `a` onto frame `b`, namely `from_frame(b) * from_frame(a)⁻¹`. -/
def from_frame_to_frame (a b : Frame) : Transformation :=
  from_frame b * inverted (from_frame a)

end Transformation

namespace Frame

/-- `Frame.from_transformation(T)`: reads the point from the translation
column and the two axes from the first two rotation columns. -/
def from_transformation (T : Transformation) : Frame :=
  ⟨⟨T 0 3, T 1 3, T 2 3⟩, ⟨T 0 0, T 1 0, T 2 0⟩, ⟨T 0 1, T 1 1, T 2 1⟩⟩

end Frame

/-- An opaque token standing for a `compas` mesh object: the `ToolModel` code
never inspects meshes, it only stores and copies them. -/
structure Mesh where
  mid : Nat
deriving DecidableEq, Repr

/-- A link of the kinematic tree, as far as `tool.py` observes it: its name
and the visual/collision meshes attached by `add_link`. -/
structure Link where
  name : String
  visual_mesh : Option Mesh
  collision_mesh : Option Mesh
deriving DecidableEq, Repr

/-- A joint of the kinematic tree; `tool.py` never inspects joints, so only a
name is carried. -/
structure Joint where
  name : String
deriving DecidableEq, Repr

/-- Modelled from the spec: the serialized dictionary produced by the base
`RobotModel.data` (the kinematic tree's keys).  `robot.py` is not among the
sources; per the spec the base serialization carries the tree's name, links
and joints.  A missing `"name"` key is modelled as `none`. -/
structure BaseData where
  name : Option String
  links : List Link
  joints : List Joint
deriving DecidableEq, Repr

/-- The serialized form of a `Frame` (`compas` `Frame.data`): point and the
two axes. -/
structure FrameData where
  point : Vec3
  xaxis : Vec3
  yaxis : Vec3
deriving DecidableEq, Repr

namespace Frame

/-- `Frame.data`: the frame's serialized form. -/
def data (f : Frame) : FrameData := ⟨f.point, f.xaxis, f.yaxis⟩

/-- `Frame.from_data`: reconstructs a frame from its serialized form. -/
def from_data (d : FrameData) : Frame := ⟨d.point, d.xaxis, d.yaxis⟩

end Frame

/-- The serialized dictionary of a `ToolModel`: the inherited base keys plus
the `"frame"` and `"link_name"` keys.  `some v` models a present key with
value `v`; `none` models an absent key. -/
structure ToolData where
  base : BaseData
  frame : Option FrameData
  link_name : Option (Option String)
deriving DecidableEq, Repr

/-- The observable state of a `ToolModel` instance: the inherited tree state
(name, links, joints) plus the tool-specific `frame` and `link_name`. -/
structure ToolModel where
  name : String
  links : List Link
  joints : List Joint
  frame : Frame
  link_name : Option String
deriving DecidableEq, Repr

/-- Modelled from the spec: a base `RobotModel` instance (kinematic tree) as
far as `tool.py` observes it — name, links, joints. -/
structure RobotModel where
  name : String
  links : List Link
  joints : List Joint
deriving DecidableEq, Repr

/-- Modelled from the spec: `RobotModel.data` serializes the tree, always
freshly recomputed from the current state (never cached), with its name,
links and joints. -/
def RobotModel.data (r : RobotModel) : BaseData := ⟨some r.name, r.links, r.joints⟩

namespace ToolModel

/-- `ToolModel.__init__(visual, frame_in_tool0_frame, collision, name,
link_name)`: initializes the base tree with `name`, adds the single link
`"attached_tool_link"` carrying `visual` and `collision or visual`, and
stores `frame` and `link_name`.  The Python defaults are `collision=None`,
`name="attached_tool"`, `link_name=None`; `Option.getD` renders
`collision = collision or visual`. -/
def init (visual : Mesh) (frame_in_tool0_frame : Frame) (collision : Option Mesh)
    (name : String) (link_name : Option String) : ToolModel :=
  { name := name
    links := [⟨"attached_tool_link", some visual, some (collision.getD visual)⟩]
    joints := []
    frame := frame_in_tool0_frame
    link_name := link_name }

/-- `ToolModel(visual, frame)` with all optional arguments left at their
Python defaults. -/
def initDefault (visual : Mesh) (frame_in_tool0_frame : Frame) : ToolModel :=
  init visual frame_in_tool0_frame none "attached_tool" none

/-- The `dtype` property: a fixed type-tag string, independent of state. -/
def dtype (_t : ToolModel) : String := "compas_robots/ToolModel"

/-- The `data` property: the superclass dictionary (name, links, joints)
augmented with the `"frame"` and `"link_name"` keys. -/
def data (t : ToolModel) : ToolData :=
  { base := ⟨some t.name, t.links, t.joints⟩
    frame := some t.frame.data
    link_name := some t.link_name }

/-- `ToolModel.from_data(data)`: the base tree is reconstructed first
(modelled from the spec: base reconstruction restores name/links/joints,
tolerating a missing name as empty), then `name` is re-defaulted when falsy,
`frame` is read from the required `"frame"` key (a missing key is the
key-not-found error, modelled as `none`), and `link_name` from the optional
`"link_name"` key. -/
def from_data (d : ToolData) : Option ToolModel :=
  match d.frame with
  | none => none
  | some fd =>
      let baseName := d.base.name.getD ""
      some { name := if baseName = "" then "attached_tool" else baseName
             links := d.base.links
             joints := d.base.joints
             frame := Frame.from_data fd
             link_name := d.link_name.getD none }

/-- The dictionary assembled by `from_robot_model`: the robot's own
serialized data with the `"frame"` and `"link_name"` keys written in. -/
def from_robot_model_data (robot : RobotModel) (frame_in_tool0_frame : Frame)
    (link_name : Option String) : ToolData :=
  { base := robot.data
    frame := some frame_in_tool0_frame.data
    link_name := some link_name }

/-- `ToolModel.from_robot_model(robot, frame_in_tool0_frame, link_name)`:
reconstructs a tool from the robot's serialized data plus the injected frame
and link name. -/
def from_robot_model (robot : RobotModel) (frame_in_tool0_frame : Frame)
    (link_name : Option String) : Option ToolModel :=
  from_data (from_robot_model_data robot frame_in_tool0_frame link_name)

/-- State-passing rendering of `from_robot_model`: `robot.data` returns a
freshly computed dictionary (per the spec, recomputed from current state and
never cached), and the subsequent key writes touch only that dictionary, so
the `robot` argument comes back unchanged. -/
def from_robot_modelS (robot : RobotModel) (frame_in_tool0_frame : Frame)
    (link_name : Option String) : RobotModel × Option ToolModel :=
  (robot, from_robot_model robot frame_in_tool0_frame link_name)

/-- `ToolModel.from_tcf_to_t0cf(frames_tcf)`: `Te` maps the stored frame onto
the world frame; each input frame's matrix is post-multiplied by `Te` and
converted back to a frame. -/
def from_tcf_to_t0cf (t : ToolModel) (frames_tcf : List Frame) : List Frame :=
  let Te := Transformation.from_frame_to_frame t.frame Frame.worldXY
  frames_tcf.map (fun f => Frame.from_transformation (Transformation.from_frame f * Te))

/-- `ToolModel.from_t0cf_to_tcf(frames_t0cf)`: `Te` maps the world frame onto
the stored frame; each input frame's matrix is post-multiplied by `Te` and
converted back to a frame. -/
def from_t0cf_to_tcf (t : ToolModel) (frames_t0cf : List Frame) : List Frame :=
  let Te := Transformation.from_frame_to_frame Frame.worldXY t.frame
  frames_t0cf.map (fun f => Frame.from_transformation (Transformation.from_frame f * Te))

/-- State-passing rendering of `from_tcf_to_t0cf`: the method body only reads
`self.frame` and builds fresh objects, so `self` comes back unchanged. -/
def from_tcf_to_t0cfS (t : ToolModel) (frames_tcf : List Frame) :
    ToolModel × List Frame :=
  (t, t.from_tcf_to_t0cf frames_tcf)

/-- State-passing rendering of `from_t0cf_to_tcf`: the method body only reads
`self.frame` and builds fresh objects, so `self` comes back unchanged. -/
def from_t0cf_to_tcfS (t : ToolModel) (frames_t0cf : List Frame) :
    ToolModel × List Frame :=
  (t, t.from_t0cf_to_tcf frames_t0cf)

end ToolModel

/-- Proof helper: the explicit inverse of `Transformation.from_frame f` for an
orthonormal frame `f` — transposed rotation block and `-Rᵀ·point`
translation.  Shown below to agree with `Transformation.inverted`. -/
def rigidInverse (f : Frame) : Transformation :=
  !![f.xaxis.x, f.xaxis.y, f.xaxis.z, -(Vec3.dot f.xaxis f.point);
     f.yaxis.x, f.yaxis.y, f.yaxis.z, -(Vec3.dot f.yaxis f.point);
     (f.zaxis).x, (f.zaxis).y, (f.zaxis).z, -(Vec3.dot f.zaxis f.point);
     0, 0, 0, 1]

/-- Proof helper: the image of a vector `w` under the rotation sending the
standard basis to `a`, `b`, `a × b`. -/
def Vec3.rotApp (a b w : Vec3) : Vec3 :=
  ⟨w.x * a.x + w.y * b.x + w.z * (Vec3.cross a b).x,
   w.x * a.y + w.y * b.y + w.z * (Vec3.cross a b).y,
   w.x * a.z + w.y * b.z + w.z * (Vec3.cross a b).z⟩

/-- Concrete orthonormal tool frame used in evaluation theorems. -/
def frame0 : Frame := ⟨⟨3, 0, 0⟩, ⟨0, 1, 0⟩, ⟨0, 0, 1⟩⟩

/-- Concrete tool built with the Python default arguments. -/
def tool0 : ToolModel := ToolModel.initDefault ⟨0⟩ frame0

/-- A second concrete tool that shares `tool0`'s frame but differs in every
other field. -/
def toolB : ToolModel := ToolModel.init ⟨1⟩ frame0 (some ⟨2⟩) "other" (some "flange")

/-- A concrete tool constructed with an explicit empty name. -/
def toolEmptyName : ToolModel := ToolModel.init ⟨0⟩ frame0 none "" none

/-- Concrete orthonormal input frame list used in evaluation theorems. -/
def X0 : List Frame := [⟨⟨1, 2, 3⟩, ⟨1, 0, 0⟩, ⟨0, 0, 1⟩⟩]

/-- A concrete serialized dictionary whose `"frame"` key is absent. -/
def dNoFrame : ToolData :=
  { base := ⟨some "robot", [], []⟩, frame := none, link_name := some (some "flange") }

/-- A concrete serialized dictionary with a `"frame"` key but no
`"link_name"` key. -/
def dNoLink : ToolData :=
  { base := ⟨some "robot", [], []⟩, frame := some Frame.worldXY.data, link_name := none }

/-- A concrete serialized dictionary whose base name is the empty string. -/
def dEmptyName : ToolData :=
  { base := ⟨some "", [], []⟩, frame := some Frame.worldXY.data, link_name := some none }

/-- The tool that `ToolModel.from_data` reconstructs from `dEmptyName`. -/
def toolFromEmpty : ToolModel :=
  { name := "attached_tool", links := [], joints := [], frame := Frame.worldXY,
    link_name := none }

/-! ## Transformation and frame algebra -/

open Transformation

/-- The world frame's matrix is the identity. -/
theorem from_frame_worldXY : from_frame Frame.worldXY = 1 := by
  ext i j
  fin_cases i <;> fin_cases j <;>
    simp [from_frame, Frame.worldXY, Frame.zaxis, Vec3.cross, Matrix.one_apply,
      Matrix.vecHead, Matrix.vecTail]

/-- The explicit rigid inverse is a left inverse of `from_frame` for an
orthonormal frame. -/
theorem rigidInverse_mul (f : Frame) (h : f.IsOrthonormal) :
    rigidInverse f * from_frame f = 1 := by
  obtain ⟨h1, h2, h3⟩ := h
  simp only [Vec3.dot] at h1 h2 h3
  ext i j
  fin_cases i <;> fin_cases j <;>
    simp [rigidInverse, from_frame, Frame.zaxis, Vec3.cross, Vec3.dot,
      Matrix.mul_apply, Fin.sum_univ_four, Matrix.one_apply, Matrix.vecHead,
      Matrix.vecTail] <;>
    first
      | ring1
      | linear_combination h1
      | linear_combination h2
      | linear_combination h3
      | linear_combination (f.yaxis.x^2 + f.yaxis.y^2 + f.yaxis.z^2) * h1 + h2 -
          (f.xaxis.x * f.yaxis.x + f.xaxis.y * f.yaxis.y + f.xaxis.z * f.yaxis.z) * h3

/-- The explicit rigid inverse is also a right inverse. -/
theorem mul_rigidInverse (f : Frame) (h : f.IsOrthonormal) :
    from_frame f * rigidInverse f = 1 :=
  Matrix.mul_eq_one_comm.mp (rigidInverse_mul f h)

/-- An orthonormal frame's matrix has nonzero determinant. -/
theorem det_from_frame_ne_zero (f : Frame) (h : f.IsOrthonormal) :
    (from_frame f).det ≠ 0 := by
  intro h0
  have hm : (from_frame f).det * (rigidInverse f).det = 1 := by
    rw [← Matrix.det_mul, mul_rigidInverse f h, Matrix.det_one]
  rw [h0, zero_mul] at hm
  exact zero_ne_one hm

/-- On an orthonormal frame's matrix, the adjugate-based `inverted` computes
the explicit rigid inverse. -/
theorem inverted_from_frame (f : Frame) (h : f.IsOrthonormal) :
    inverted (from_frame f) = rigidInverse f := by
  have hdet := det_from_frame_ne_zero f h
  have hL : inverted (from_frame f) * from_frame f = 1 := by
    rw [inverted, Matrix.smul_mul, Matrix.adjugate_mul, smul_smul,
      inv_mul_cancel₀ hdet, one_smul]
  calc inverted (from_frame f)
      = inverted (from_frame f) * (from_frame f * rigidInverse f) := by
        rw [mul_rigidInverse f h, mul_one]
    _ = inverted (from_frame f) * from_frame f * rigidInverse f := by
        rw [mul_assoc]
    _ = rigidInverse f := by rw [hL, one_mul]

/-- `inverted` of the identity is the identity. -/
theorem inverted_one : inverted (1 : Transformation) = 1 := by
  rw [inverted, Matrix.det_one, Matrix.adjugate_one]
  simp

/-- A rotation sending the standard basis to `a`, `b`, `a × b` (with `a`, `b`
orthonormal) preserves cross products. -/
theorem cross_rotApp (a b p q : Vec3) (ha : Vec3.dot a a = 1)
    (hb : Vec3.dot b b = 1) (hab : Vec3.dot a b = 0) :
    Vec3.cross (Vec3.rotApp a b p) (Vec3.rotApp a b q) =
      Vec3.rotApp a b (Vec3.cross p q) := by
  simp only [Vec3.dot] at ha hb hab
  simp only [Vec3.rotApp, Vec3.cross, Vec3.mk.injEq]
  refine ⟨?_, ?_, ?_⟩
  · linear_combination (p.z*q.x - p.x*q.z) * b.x * ha +
      (p.y*q.z - p.z*q.y) * a.x * hb -
      ((p.y*q.z - p.z*q.y) * b.x + (p.z*q.x - p.x*q.z) * a.x) * hab
  · linear_combination (p.z*q.x - p.x*q.z) * b.y * ha +
      (p.y*q.z - p.z*q.y) * a.y * hb -
      ((p.y*q.z - p.z*q.y) * b.y + (p.z*q.x - p.x*q.z) * a.y) * hab
  · linear_combination (p.z*q.x - p.x*q.z) * b.z * ha +
      (p.y*q.z - p.z*q.y) * a.z * hb -
      ((p.y*q.z - p.z*q.y) * b.z + (p.z*q.x - p.x*q.z) * a.z) * hab

/-- The rows of an orthonormal right-handed basis matrix cross the same way
its columns do. -/
theorem rows_cross (u v : Vec3) (hu : Vec3.dot u u = 1)
    (hv : Vec3.dot v v = 1) (huv : Vec3.dot u v = 0) :
    Vec3.cross ⟨u.x, v.x, (Vec3.cross u v).x⟩ ⟨u.y, v.y, (Vec3.cross u v).y⟩ =
      ⟨u.z, v.z, (Vec3.cross u v).z⟩ := by
  simp only [Vec3.dot] at hu hv huv
  simp only [Vec3.cross, Vec3.mk.injEq]
  refine ⟨?_, ?_, ?_⟩
  · linear_combination u.z * hv - v.z * huv
  · linear_combination v.z * hu - u.z * huv
  · ring

/-- A matrix with affine bottom row whose third rotation column is the cross
product of the first two is reproduced exactly by
`from_frame ∘ from_transformation`. -/
theorem from_frame_from_transformation (M : Transformation)
    (hb0 : M 3 0 = 0) (hb1 : M 3 1 = 0) (hb2 : M 3 2 = 0) (hb3 : M 3 3 = 1)
    (hcross : Vec3.cross ⟨M 0 0, M 1 0, M 2 0⟩ ⟨M 0 1, M 1 1, M 2 1⟩ =
      ⟨M 0 2, M 1 2, M 2 2⟩) :
    from_frame (Frame.from_transformation M) = M := by
  have k1 := congrArg Vec3.x hcross
  have k2 := congrArg Vec3.y hcross
  have k3 := congrArg Vec3.z hcross
  simp only [Vec3.cross] at k1 k2 k3
  ext i j
  fin_cases i <;> fin_cases j <;>
    simp [from_frame, Frame.from_transformation, Frame.zaxis, Vec3.cross,
      Matrix.vecHead, Matrix.vecTail] <;>
    first
      | rfl
      | exact k1
      | exact k2
      | exact k3
      | exact hb0.symm
      | exact hb1.symm
      | exact hb2.symm
      | exact hb3.symm

/-- The bottom row of `from_frame f * rigidInverse g` is that of
`rigidInverse g`. -/
theorem product_bottom (f g : Frame) (j : Fin 4) :
    (from_frame f * rigidInverse g) 3 j = rigidInverse g 3 j := by
  fin_cases j <;>
    simp [from_frame, rigidInverse, Matrix.mul_apply, Fin.sum_univ_four,
      Matrix.vecHead, Matrix.vecTail]

/-- First rotation column of `from_frame f * rigidInverse g` as a rotated
vector. -/
theorem product_col0 (f g : Frame) :
    (⟨(from_frame f * rigidInverse g) 0 0, (from_frame f * rigidInverse g) 1 0,
      (from_frame f * rigidInverse g) 2 0⟩ : Vec3) =
    Vec3.rotApp f.xaxis f.yaxis
      ⟨g.xaxis.x, g.yaxis.x, (Vec3.cross g.xaxis g.yaxis).x⟩ := by
  simp only [Vec3.rotApp, Vec3.mk.injEq, from_frame, rigidInverse, Frame.zaxis,
    Matrix.mul_apply, Fin.sum_univ_four]
  refine ⟨?_, ?_, ?_⟩ <;>
    simp [Matrix.vecHead, Matrix.vecTail] <;> ring

/-- Second rotation column of `from_frame f * rigidInverse g` as a rotated
vector. -/
theorem product_col1 (f g : Frame) :
    (⟨(from_frame f * rigidInverse g) 0 1, (from_frame f * rigidInverse g) 1 1,
      (from_frame f * rigidInverse g) 2 1⟩ : Vec3) =
    Vec3.rotApp f.xaxis f.yaxis
      ⟨g.xaxis.y, g.yaxis.y, (Vec3.cross g.xaxis g.yaxis).y⟩ := by
  simp only [Vec3.rotApp, Vec3.mk.injEq, from_frame, rigidInverse, Frame.zaxis,
    Matrix.mul_apply, Fin.sum_univ_four]
  refine ⟨?_, ?_, ?_⟩ <;>
    simp [Matrix.vecHead, Matrix.vecTail] <;> ring

/-- Third rotation column of `from_frame f * rigidInverse g` as a rotated
vector. -/
theorem product_col2 (f g : Frame) :
    (⟨(from_frame f * rigidInverse g) 0 2, (from_frame f * rigidInverse g) 1 2,
      (from_frame f * rigidInverse g) 2 2⟩ : Vec3) =
    Vec3.rotApp f.xaxis f.yaxis
      ⟨g.xaxis.z, g.yaxis.z, (Vec3.cross g.xaxis g.yaxis).z⟩ := by
  simp only [Vec3.rotApp, Vec3.mk.injEq, from_frame, rigidInverse, Frame.zaxis,
    Matrix.mul_apply, Fin.sum_univ_four]
  refine ⟨?_, ?_, ?_⟩ <;>
    simp [Matrix.vecHead, Matrix.vecTail] <;> ring

/-- For orthonormal `f` and `g`, the rotation columns of
`from_frame f * rigidInverse g` satisfy the cross-product relation. -/
theorem product_cross_cols (f g : Frame) (hf : f.IsOrthonormal)
    (hg : g.IsOrthonormal) :
    Vec3.cross
      ⟨(from_frame f * rigidInverse g) 0 0, (from_frame f * rigidInverse g) 1 0,
        (from_frame f * rigidInverse g) 2 0⟩
      ⟨(from_frame f * rigidInverse g) 0 1, (from_frame f * rigidInverse g) 1 1,
        (from_frame f * rigidInverse g) 2 1⟩ =
      ⟨(from_frame f * rigidInverse g) 0 2, (from_frame f * rigidInverse g) 1 2,
        (from_frame f * rigidInverse g) 2 2⟩ := by
  rw [product_col0, product_col1,
    cross_rotApp _ _ _ _ hf.1 hf.2.1 hf.2.2,
    rows_cross g.xaxis g.yaxis hg.1 hg.2.1 hg.2.2, product_col2]

/-- `from_frame` reproduces the mixed product `from_frame f * rigidInverse g`
from its extracted frame. -/
theorem from_frame_mul_rigidInverse_reconstruct (f g : Frame)
    (hf : f.IsOrthonormal) (hg : g.IsOrthonormal) :
    from_frame (Frame.from_transformation (from_frame f * rigidInverse g)) =
      from_frame f * rigidInverse g := by
  refine from_frame_from_transformation _ ?_ ?_ ?_ ?_
    (product_cross_cols f g hf hg) <;>
  · rw [product_bottom]
    simp [rigidInverse, Matrix.vecHead, Matrix.vecTail]

/-- `from_transformation` undoes `from_frame`. -/
theorem from_transformation_from_frame (f : Frame) :
    Frame.from_transformation (from_frame f) = f := by
  cases f
  simp [Frame.from_transformation, from_frame, Matrix.vecHead, Matrix.vecTail]

/-- One frame's tcf-to-t0cf-to-tcf round trip, at the matrix level. -/
theorem roundtrip_frame (fr f : Frame) (hfr : fr.IsOrthonormal)
    (hf : f.IsOrthonormal) :
    Frame.from_transformation
      (from_frame (Frame.from_transformation (from_frame f * rigidInverse fr)) *
        from_frame fr) = f := by
  rw [from_frame_mul_rigidInverse_reconstruct f fr hf hfr, mul_assoc,
    rigidInverse_mul fr hfr, mul_one, from_transformation_from_frame]

/-- The elementwise round trip lifted to lists of orthonormal frames. -/
theorem map_roundtrip (fr : Frame) (hfr : fr.IsOrthonormal) :
    ∀ (X : List Frame), (∀ f ∈ X, f.IsOrthonormal) →
      X.map (fun f =>
        Frame.from_transformation
          (from_frame (Frame.from_transformation (from_frame f * rigidInverse fr)) *
            from_frame fr)) = X := by
  intro X
  induction X with
  | nil => intro _; rfl
  | cons f tl ih =>
      intro hX
      simp only [List.map_cons, List.cons.injEq]
      exact ⟨roundtrip_frame fr f hfr (hX f (List.mem_cons_self f tl)),
        ih (fun a ha => hX a (List.mem_cons_of_mem f ha))⟩

/-! ## Claim theorems -/

/-- C1: for every `ToolModel` (whose stored frame satisfies the `Frame`
orthonormality invariant) and every list `X` of frames (orthonormal,
including the empty list), `from_t0cf_to_tcf (from_tcf_to_t0cf X) = X`:
the two conversion methods are mutual inverses, exactly in the rational
model (hence within floating-point tolerance in the Python code). -/
theorem tcf_t0cf_roundtrip (t : ToolModel) (hfr : t.frame.IsOrthonormal)
    (X : List Frame) (hX : ∀ f ∈ X, f.IsOrthonormal) :
    t.from_t0cf_to_tcf (t.from_tcf_to_t0cf X) = X := by
  have hTe1 : from_frame_to_frame t.frame Frame.worldXY = rigidInverse t.frame := by
    rw [from_frame_to_frame, from_frame_worldXY, inverted_from_frame _ hfr, one_mul]
  have hTe2 : from_frame_to_frame Frame.worldXY t.frame = from_frame t.frame := by
    rw [from_frame_to_frame, from_frame_worldXY, inverted_one, mul_one]
  simp only [ToolModel.from_tcf_to_t0cf, ToolModel.from_t0cf_to_tcf, hTe1, hTe2,
    List.map_map]
  exact map_roundtrip t.frame hfr X hX

/-- C1 witness: the round trip evaluated on the concrete tool `tool0` and the
concrete one-frame list `X0`. -/
theorem tcf_t0cf_roundtrip_witness :
    (tool0.frame.IsOrthonormal ∧ ∀ f ∈ X0, f.IsOrthonormal) ∧
      tool0.from_t0cf_to_tcf (tool0.from_tcf_to_t0cf X0) = X0 := by
  have h1 : tool0.frame.IsOrthonormal := by
    simp [tool0, ToolModel.initDefault, ToolModel.init, frame0,
      Frame.IsOrthonormal, Vec3.dot]
  have h2 : ∀ f ∈ X0, f.IsOrthonormal := by
    intro f hf
    simp only [X0, List.mem_singleton] at hf
    subst hf
    simp [Frame.IsOrthonormal, Vec3.dot]
  exact ⟨⟨h1, h2⟩, tcf_t0cf_roundtrip tool0 h1 X0 h2⟩

/-- C2 counterexample: for the concrete tool constructed with an explicit
empty name, `from_data (x.data)` does not reproduce `x` — the reconstructed
name is `"attached_tool"`, not `""`, so "same name" fails. -/
theorem data_roundtrip_name_cex :
    ToolModel.from_data toolEmptyName.data ≠ some toolEmptyName ∧
    (ToolModel.from_data toolEmptyName.data).map ToolModel.name =
      some "attached_tool" ∧
    toolEmptyName.name = "" := by
  refine ⟨?_, ?_, rfl⟩ <;>
    simp [toolEmptyName, ToolModel.init, ToolModel.data, ToolModel.from_data,
      Frame.data, Frame.from_data]

/-- C2 (amended): for every `ToolModel` whose name is non-empty,
`from_data (x.data) = some x` — identical links, joints, frame, link_name and
name; when the name is empty the reconstruction renames it to
`"attached_tool"`. -/
theorem data_roundtrip (x : ToolModel) (h : x.name ≠ "") :
    ToolModel.from_data x.data = some x := by
  simp [ToolModel.data, ToolModel.from_data, Frame.data, Frame.from_data, h]

/-- C2 witness: the serialization round trip evaluated on the concrete tool
`tool0`. -/
theorem data_roundtrip_witness :
    tool0.name ≠ "" ∧ ToolModel.from_data tool0.data = some tool0 := by
  have h : tool0.name ≠ "" := by simp [tool0, ToolModel.initDefault, ToolModel.init]
  exact ⟨h, data_roundtrip tool0 h⟩

/-- C3: `from_data` fails (key-not-found, modelled as `none`) when the
`"frame"` key is absent, while an absent `"link_name"` key is tolerated and
the reconstructed tool's `link_name` is `None`. -/
theorem from_data_missing_keys (d : ToolData) :
    (d.frame = none → ToolModel.from_data d = none) ∧
    (∀ fd : FrameData, d.frame = some fd → d.link_name = none →
      (ToolModel.from_data d).map ToolModel.link_name = some none) := by
  constructor
  · intro h
    simp [ToolModel.from_data, h]
  · intro fd hf hl
    simp [ToolModel.from_data, hf, hl]

/-- C3 witness: evaluated on the concrete dictionaries `dNoFrame` (no
`"frame"` key) and `dNoLink` (no `"link_name"` key). -/
theorem from_data_missing_keys_witness :
    ToolModel.from_data dNoFrame = none ∧
      (ToolModel.from_data dNoLink).map ToolModel.link_name = some none :=
  ⟨(from_data_missing_keys dNoFrame).1 rfl,
    (from_data_missing_keys dNoLink).2 Frame.worldXY.data rfl rfl⟩

/-- C5: `from_robot_model(robot, frame, link_name)` leaves `robot` unchanged
(its `data` dictionary is freshly computed, so the key writes touch only the
dictionary) and produces a tool with the robot's links and joints and the
given frame and link name. -/
theorem from_robot_model_props (r : RobotModel) (f : Frame) (ln : Option String) :
    (ToolModel.from_robot_modelS r f ln).1 = r ∧
    (ToolModel.from_robot_model r f ln).map ToolModel.links = some r.links ∧
    (ToolModel.from_robot_model r f ln).map ToolModel.joints = some r.joints ∧
    (ToolModel.from_robot_model r f ln).map ToolModel.frame = some f ∧
    (ToolModel.from_robot_model r f ln).map ToolModel.link_name = some ln := by
  refine ⟨rfl, ?_, ?_, ?_, ?_⟩ <;>
    simp [ToolModel.from_robot_model, ToolModel.from_robot_model_data,
      ToolModel.from_data, RobotModel.data, Frame.data, Frame.from_data]

/-- C6: constructing with only `visual` and `frame` (all other arguments at
their Python defaults) stores `visual` itself as the collision mesh of the
single link, and yields `name = "attached_tool"` and `link_name = None`. -/
theorem init_defaults (v : Mesh) (f : Frame) :
    (ToolModel.initDefault v f).links =
      [⟨"attached_tool_link", some v, some v⟩] ∧
    (ToolModel.initDefault v f).name = "attached_tool" ∧
    (ToolModel.initDefault v f).link_name = none :=
  ⟨rfl, rfl, rfl⟩

/-- C7: both conversion methods are pure functions of `self.frame` and the
input: the state comes back unchanged, and two tools with equal frames
produce equal outputs on equal inputs (determinism is definitional in the
embedding). -/
theorem conversion_pure (t u : ToolModel) (fs : List Frame) :
    (t.from_tcf_to_t0cfS fs).1 = t ∧ (t.from_t0cf_to_tcfS fs).1 = t ∧
    (t.frame = u.frame →
      (t.from_tcf_to_t0cfS fs).2 = (u.from_tcf_to_t0cfS fs).2 ∧
      (t.from_t0cf_to_tcfS fs).2 = (u.from_t0cf_to_tcfS fs).2) := by
  refine ⟨rfl, rfl, fun h => ⟨?_, ?_⟩⟩ <;>
    simp [ToolModel.from_tcf_to_t0cfS, ToolModel.from_t0cf_to_tcfS,
      ToolModel.from_tcf_to_t0cf, ToolModel.from_t0cf_to_tcf, h]

/-- C7 witness: the two concrete tools `tool0` and `toolB` share a frame and
produce the same conversion output on `X0`. -/
theorem conversion_pure_witness :
    tool0.frame = toolB.frame ∧
      (tool0.from_tcf_to_t0cfS X0).2 = (toolB.from_tcf_to_t0cfS X0).2 := by
  have h : tool0.frame = toolB.frame := rfl
  exact ⟨h, ((conversion_pure tool0 toolB X0).2.2 h).1⟩

/-- C8: on deserialization a missing or empty base name is re-defaulted to
`"attached_tool"`, while direct construction stores the given name verbatim,
an explicit empty string included. -/
theorem name_defaulting :
    (∀ d : ToolData, ∀ t : ToolModel, ToolModel.from_data d = some t →
      (d.base.name = none ∨ d.base.name = some "") → t.name = "attached_tool") ∧
    (∀ (v : Mesh) (fr : Frame) (c : Option Mesh) (n : String)
        (ln : Option String), (ToolModel.init v fr c n ln).name = n) := by
  constructor
  · intro d t h hn
    rcases hd : d.frame with _ | fd
    · simp [ToolModel.from_data, hd] at h
    · rcases hn with hn | hn <;>
      · simp [ToolModel.from_data, hd, hn] at h
        rw [← h]
  · intro v fr c n ln
    rfl

/-- C8 witness: deserializing the concrete dictionary `dEmptyName` (base name
`""`) yields the name `"attached_tool"`, while direct construction with `""`
keeps `""`. -/
theorem name_defaulting_witness :
    ToolModel.from_data dEmptyName = some toolFromEmpty ∧
    toolFromEmpty.name = "attached_tool" ∧
    (ToolModel.init ⟨0⟩ Frame.worldXY none "" none).name = "" := by
  have h : ToolModel.from_data dEmptyName = some toolFromEmpty := by
    simp [dEmptyName, ToolModel.from_data, toolFromEmpty, Frame.from_data,
      Frame.data]
  exact ⟨h, name_defaulting.1 dEmptyName toolFromEmpty h (Or.inr rfl),
    name_defaulting.2 ⟨0⟩ Frame.worldXY none "" none⟩

/-- C9: the `dtype` property returns the fixed type-tag string
`"compas_robots/ToolModel"` on every instance, regardless of state. -/
theorem dtype_constant (t : ToolModel) : t.dtype = "compas_robots/ToolModel" := rfl

/-- C10: the `data` dictionary always carries both the `"frame"` key and the
`"link_name"` key (the latter present with value `None` rather than omitted),
and `from_robot_model` likewise writes both keys into the dictionary it
passes to `from_data`. -/
theorem data_always_has_keys (t : ToolModel) (r : RobotModel) (f : Frame)
    (ln : Option String) :
    t.data.frame = some t.frame.data ∧
    t.data.link_name = some t.link_name ∧
    (ToolModel.from_robot_model_data r f ln).frame = some f.data ∧
    (ToolModel.from_robot_model_data r f ln).link_name = some ln :=
  ⟨rfl, rfl, rfl, rfl⟩

/-- C4: each conversion method is an order-preserving map: the output has the
input's length, and the `i`-th output frame is the `i`-th input frame's
matrix composed with the single transform `Te` built from `self.frame`
(frame-to-world for `from_tcf_to_t0cf`, world-to-frame for
`from_t0cf_to_tcf`), converted back to a frame. -/
theorem conversion_shape (t : ToolModel) (fs : List Frame) :
    (t.from_tcf_to_t0cf fs).length = fs.length ∧
    (t.from_t0cf_to_tcf fs).length = fs.length ∧
    (∀ i : Nat, (t.from_tcf_to_t0cf fs)[i]? = (fs[i]?).map (fun f =>
      Frame.from_transformation (Transformation.from_frame f *
        Transformation.from_frame_to_frame t.frame Frame.worldXY))) ∧
    (∀ i : Nat, (t.from_t0cf_to_tcf fs)[i]? = (fs[i]?).map (fun f =>
      Frame.from_transformation (Transformation.from_frame f *
        Transformation.from_frame_to_frame Frame.worldXY t.frame))) := by
  refine ⟨?_, ?_, ?_, ?_⟩ <;>
    simp [ToolModel.from_tcf_to_t0cf, ToolModel.from_t0cf_to_tcf]
